import Mathlib

/-!
# Verification of `ResettableSession` (src/app/services/reverse/utils/session.py)

Shallow embedding of the resettable-session guard: an `AsyncSession` wrapper
that marks a reset as pending when a response carries a "poison" status code
and rebuilds the underlying session lazily on the next request (or on an
explicit `reset()` call).

Modelling choices:
* Underlying sessions are identified by natural-number ids handed out by a
  counter `nextId` (each `_create_session()` call consumes a fresh id), so
  that "a different underlying session instance" is expressible.
* The transport is an oracle supplied per call: a request either returns a
  status code or raises; closing a session either succeeds or raises,
  according to a `closeErr` oracle.
* Each operation additionally returns a trace of events (created, installed,
  closed, close-failed, delegated, logged) so that ordering properties of the
  reconstruction sequence can be stated.
* The `asyncio` interleaving relevant to `_maybe_reset`'s double-checked
  locking is modelled separately (`MConfig`/`taskStep`): each task is a
  program counter walking through `_maybe_reset`, with atomic blocks exactly
  between the `await` suspension points of the Python code.
-/

/-- Events observable at the boundary between the guard and the underlying
transport / logger. -/
inductive Event where
  | created (sid : Nat)
  | installed (sid : Nat)
  | closed (sid : Nat)
  | closeFailed (old : Option Nat)
  | delegated (sid : Nat)
  | resetLogged
deriving DecidableEq

/-- Mutable state of a `ResettableSession`: the `_session` handle (`none`
after `close()`), the `_reset_requested` flag, and the fresh-id counter used
to name the next session `_create_session()` would build. -/
structure SessState where
  session : Option Nat
  resetRequested : Bool
  nextId : Nat
deriving DecidableEq

/-- State right after `__init__`: the first live session (id 0) was built
synchronously, no reset pending. -/
def initState : SessState :=
  { session := some 0, resetRequested := false, nextId := 1 }

/-- `reset_on_status` argument of `__init__`: either a single int or an
iterable of ints (`None` is represented by `Option` at the call site). -/
inductive ResetOnStatus where
  | int (c : Int)
  | iter (cs : List Int)

/-- `isinstance(reset_on_status, int)` normalisation: a single int becomes a
one-element list. -/
def ResetOnStatus.toList : ResetOnStatus → List Int
  | .int c => [c]
  | .iter cs => cs

/-- Poison-code resolution performed by `__init__` (session.py:31-38):
if the argument is `None`, fall back to `get_config("retry.reset_session_status_codes")`
when that is not `None`, else `[403]`; a bare int becomes a singleton; the
final Python set comprehension is guarded by the truthiness of the list. -/
def resolvePoisonCodes (reset_on_status : Option ResetOnStatus)
    (config_codes : Option (List Int)) : Finset Int :=
  let ros : ResetOnStatus :=
    match reset_on_status with
    | none =>
        ResetOnStatus.iter (match config_codes with
          | some cs => cs
          | none => [403])
    | some r => r
  let l := ros.toList
  if l = [] then ∅ else l.toFinset

/-- Closing the discarded handle inside `_maybe_reset` (session.py:60-63):
`await old_session.close()` wrapped in `try/except Exception: pass`.  When the
handle is absent (`None`), evaluating `.close` raises `AttributeError`, which
the same handler swallows.  Only the trace records what happened. -/
def closeOldEvents (closeErr : Nat → Bool) : Option Nat → List Event
  | none => [.closeFailed none]
  | some sid => if closeErr sid then [.closeFailed (some sid)] else [.closed sid]

/-- `_maybe_reset` (session.py:51-64), sequential view: if `_reset_requested`
is set, clear it, build and install a fresh session, then close the old
handle with all exceptions suppressed, then log.  No error channel: the only
fallible step is the old close, whose exceptions are caught. -/
def maybeReset (closeErr : Nat → Bool) (s : SessState) : SessState × List Event :=
  if s.resetRequested then
    ({ session := some s.nextId, resetRequested := false, nextId := s.nextId + 1 },
      [.created s.nextId, .installed s.nextId]
        ++ closeOldEvents closeErr s.session ++ [.resetLogged])
  else (s, [])

/-- Outcome of the delegated transport call for one request: a response with
a status code, or a raised transport exception (numbered). -/
inductive TransportResult where
  | ok (status : Int)
  | err (e : Nat)
deriving DecidableEq

/-- A response as the caller sees it: its status code, tagged with the id of
the underlying session instance that produced it. -/
structure Response where
  status : Int
  servedBy : Nat
deriving DecidableEq

/-- Errors `_request` can let escape: a propagated transport exception, or
the `AttributeError` from delegating on an absent (closed) handle. -/
inductive ReqError where
  | transport (e : Nat)
  | noSession
deriving DecidableEq

/-- `_request` (session.py:66-71): run `_maybe_reset`, delegate to the live
session, then arm `_reset_requested` iff the poison set is truthy (non-empty)
and contains the response status; the response (or transport exception) is
passed through unchanged. -/
def requestStep (codes : Finset Int) (closeErr : Nat → Bool)
    (tr : TransportResult) (s : SessState) :
    SessState × List Event × Except ReqError Response :=
  let p := maybeReset closeErr s
  match p.1.session with
  | none => (p.1, p.2, Except.error ReqError.noSession)
  | some sid =>
    match tr with
    | .err e => (p.1, p.2 ++ [.delegated sid], Except.error (ReqError.transport e))
    | .ok st =>
        let s2 := if codes.Nonempty ∧ st ∈ codes
          then { p.1 with resetRequested := true } else p.1
        (s2, p.2 ++ [.delegated sid], Except.ok ⟨st, sid⟩)

/-- `reset` (session.py:79-81): set the pending flag unconditionally, then
run `_maybe_reset` before returning. -/
def resetOp (closeErr : Nat → Bool) (s : SessState) : SessState × List Event :=
  maybeReset closeErr { s with resetRequested := true }

/-- `close` (session.py:83-90): no-op when the handle is already absent;
otherwise close the live session and — in a `finally` block, hence whether or
not the close raised — set the handle to `None` and clear the pending flag.
The third component records whether the underlying close raised (that
exception propagates to the caller). -/
def closeOp (closeErr : Nat → Bool) (s : SessState) : SessState × List Event × Bool :=
  match s.session with
  | none => (s, [], false)
  | some sid =>
      ({ session := none, resetRequested := false, nextId := s.nextId },
        (if closeErr sid then [.closeFailed (some sid)] else [.closed sid]),
        closeErr sid)

/-- One caller-visible operation on the guard. -/
inductive Op where
  | req (tr : TransportResult)
  | rst
  | cls

/-- State-and-trace effect of one operation. -/
def opStep (codes : Finset Int) (closeErr : Nat → Bool) (s : SessState) :
    Op → SessState × List Event
  | .req tr => ((requestStep codes closeErr tr s).1, (requestStep codes closeErr tr s).2.1)
  | .rst => resetOp closeErr s
  | .cls => ((closeOp closeErr s).1, (closeOp closeErr s).2.1)

/-- Run a sequence of operations, concatenating traces. -/
def runOps (codes : Finset Int) (closeErr : Nat → Bool) :
    SessState → List Op → SessState × List Event
  | s, [] => (s, [])
  | s, op :: ops =>
      let p := opStep codes closeErr s op
      let q := runOps codes closeErr p.1 ops
      (q.1, p.2 ++ q.2)

/-- `a` occurs strictly before `b` in the trace `tr`. -/
def precedes (a b : Event) (tr : List Event) : Prop :=
  ∃ i : Fin tr.length, ∃ j : Fin tr.length,
    (i : Nat) < (j : Nat) ∧ tr.get i = a ∧ tr.get j = b

instance (a b : Event) (tr : List Event) : Decidable (precedes a b tr) := by
  unfold precedes
  infer_instance

/-!
## Cooperative interleaving model of `_maybe_reset`

`asyncio` tasks interleave only at `await` points.  Inside `_maybe_reset`
those are: acquiring `self._reset_lock` and `await old_session.close()`.
Once the lock acquisition completes, lines 55-59 (the re-check of the flag,
clearing it, building and installing the new session) run without any
suspension, so they form one atomic block together with the acquisition
(`_reset_requested`, `_session` and the id counter are only written under
the lock, so no other task can interpose a write there; other tasks' reads
of the flag commute with the block).  A task is thus a program counter:

* `start`    — the unlocked fast-path read of `_reset_requested` (line 52);
* `waitLock` — waiting on `async with self._reset_lock` (line 54);
* `closing`  — holding the lock, about to `await old_session.close()`
               (failures swallowed), log and release (lines 60-64);
* `done`     — returned.
-/

/-- Program counter of one task running `_maybe_reset`. -/
inductive Pc where
  | start
  | waitLock
  | closing (old : Option Nat)
  | done
deriving DecidableEq

/-- Shared state plus the program counters of the concurrently running
`_maybe_reset` tasks.  `createCount` counts `_create_session()` calls (the
"counting stub transport"). -/
structure MConfig where
  resetRequested : Bool
  session : Option Nat
  nextId : Nat
  lockHeld : Bool
  createCount : Nat
  tasks : List Pc
deriving DecidableEq

/-- Initial configuration for a pending episode: the flag was armed by a
poison response, the lock is free, and `n` concurrent callers are about to
enter `_maybe_reset`. -/
def mInit (n : Nat) : MConfig :=
  { resetRequested := true, session := some 0, nextId := 1,
    lockHeld := false, createCount := 0, tasks := List.replicate n Pc.start }

/-- One scheduler step: run task `i` up to its next suspension point.  A
task blocked on the lock (or an out-of-range index, or a finished task)
leaves the configuration unchanged. -/
def taskStep (c : MConfig) (i : Nat) : MConfig :=
  match c.tasks[i]? with
  | none => c
  | some Pc.done => c
  | some Pc.start =>
      if c.resetRequested
        then { c with tasks := c.tasks.set i Pc.waitLock }
        else { c with tasks := c.tasks.set i Pc.done }
  | some Pc.waitLock =>
      if c.lockHeld then c
      else if c.resetRequested then
        { c with resetRequested := false,
                 session := some c.nextId,
                 nextId := c.nextId + 1,
                 createCount := c.createCount + 1,
                 lockHeld := true,
                 tasks := c.tasks.set i (Pc.closing c.session) }
      else
        { c with tasks := c.tasks.set i Pc.done }
  | some (Pc.closing _) =>
      { c with lockHeld := false, tasks := c.tasks.set i Pc.done }

/-- Run a schedule (a list of task indices). -/
def runSched (c : MConfig) : List Nat → MConfig
  | [] => c
  | i :: rest => runSched (taskStep c i) rest

/-- The task is inside the critical reconstruction section. -/
def isClosing : Pc → Bool
  | Pc.closing _ => true
  | _ => false

/-- Number of tasks currently inside the critical reconstruction section. -/
def closingCount (c : MConfig) : Nat :=
  c.tasks.countP isClosing

/-- All tasks have returned from `_maybe_reset`. -/
def allDone (c : MConfig) : Prop :=
  ∀ pc ∈ c.tasks, pc = Pc.done

instance (c : MConfig) : Decidable (allDone c) := by
  unfold allDone
  infer_instance

/-!
## Theorems
-/

/-- C3: poison-code resolution precedence at construction: an explicit int
is the singleton set, an explicit iterable is used as given, an omitted
argument falls back to the configured default list, and with no
configuration the set is exactly {403}; with configured default [429, 503]
and no explicit argument, 429 and 503 are poison codes and 403 is not. -/
theorem construction_poison_code_precedence :
    (∀ (c : Int) (cfg : Option (List Int)),
      resolvePoisonCodes (some (ResetOnStatus.int c)) cfg = {c}) ∧
    (∀ (cs : List Int) (cfg : Option (List Int)),
      resolvePoisonCodes (some (ResetOnStatus.iter cs)) cfg = cs.toFinset) ∧
    (∀ cs : List Int, resolvePoisonCodes none (some cs) = cs.toFinset) ∧
    resolvePoisonCodes none none = ({403} : Finset Int) ∧
    resolvePoisonCodes none (some [429, 503]) = ({429, 503} : Finset Int) ∧
    (403 : Int) ∉ resolvePoisonCodes none (some [429, 503]) ∧
    (429 : Int) ∈ resolvePoisonCodes none (some [429, 503]) ∧
    (503 : Int) ∈ resolvePoisonCodes none (some [429, 503]) := by
  refine ⟨fun c cfg => ?_, fun cs cfg => ?_, fun cs => ?_, by decide, by decide, by decide,
    by decide, by decide⟩
  · simp [resolvePoisonCodes, ResetOnStatus.toList]
  · cases cs <;> simp [resolvePoisonCodes, ResetOnStatus.toList]
  · cases cs <;> simp [resolvePoisonCodes, ResetOnStatus.toList]

/-- C4: a response whose status is not in the poison set leaves the guard
state untouched (flag stays unset, same session); with the empty poison set
even a 403 arms nothing and consecutive requests are both delegated to the
same session instance. -/
theorem non_poison_never_arms_reset (codes : Finset Int) (closeErr : Nat → Bool)
    (s : SessState) (sid : Nat) (st : Int)
    (hs : s.session = some sid) (hf : s.resetRequested = false) (hst : st ∉ codes) :
    requestStep codes closeErr (TransportResult.ok st) s =
      (s, [Event.delegated sid], Except.ok ⟨st, sid⟩) ∧
    (codes = ∅ →
      (runOps codes closeErr s
          [Op.req (TransportResult.ok 403), Op.req (TransportResult.ok st)]).2 =
        [Event.delegated sid, Event.delegated sid]) := by
  have hbase : requestStep codes closeErr (TransportResult.ok st) s =
      (s, [Event.delegated sid], Except.ok ⟨st, sid⟩) := by
    simp [requestStep, maybeReset, hf, hs, hst]
  refine ⟨hbase, fun he => ?_⟩
  subst he
  have h403 : requestStep (∅ : Finset Int) closeErr (TransportResult.ok 403) s =
      (s, [Event.delegated sid], Except.ok ⟨403, sid⟩) := by
    simp [requestStep, maybeReset, hf, hs]
  simp [runOps, opStep, h403, hbase]

/-- C9: a transport-level exception from the delegated call propagates
unchanged and leaves the guard state exactly as it was: the pending flag is
not armed and no reconstruction happens. -/
theorem transport_error_propagates (codes : Finset Int) (closeErr : Nat → Bool)
    (s : SessState) (sid : Nat) (e : Nat)
    (hs : s.session = some sid) (hf : s.resetRequested = false) :
    requestStep codes closeErr (TransportResult.err e) s =
      (s, [Event.delegated sid], Except.error (ReqError.transport e)) := by
  simp [requestStep, maybeReset, hf, hs]

/-- C7: `close()` on an open guard attempts the underlying close and — via
the `finally` block — unconditionally clears the internal state (handle
absent, flag cleared) even when the close raises; the raise is what
propagates, and a second `close()` is a no-op that raises nothing. -/
theorem close_clears_state_and_idempotent (closeErr : Nat → Bool)
    (s : SessState) (sid : Nat) (hs : s.session = some sid) :
    (closeOp closeErr s).1 =
      { session := none, resetRequested := false, nextId := s.nextId } ∧
    (closeOp closeErr s).2.1 =
      (if closeErr sid then [Event.closeFailed (some sid)] else [Event.closed sid]) ∧
    (closeOp closeErr s).2.2 = closeErr sid ∧
    closeOp closeErr (closeOp closeErr s).1 = ((closeOp closeErr s).1, [], false) := by
  simp [closeOp, hs]

/-- C6: during reconstruction the close of the discarded session is wrapped
in `try/except Exception: pass`: the resulting guard state does not depend
on whether that close raised, the fresh session is installed regardless,
and `maybeReset` has no error outcome at all (its return type carries no
exception channel), so nothing can propagate to the triggering caller; the
response of the request that performed the reconstruction is likewise
independent of the close failure. -/
theorem reconstruction_close_failure_suppressed (closeErr closeErr2 : Nat → Bool)
    (s : SessState) (hp : s.resetRequested = true) :
    (maybeReset closeErr s).1 =
      { session := some s.nextId, resetRequested := false, nextId := s.nextId + 1 } ∧
    (maybeReset closeErr s).1 = (maybeReset closeErr2 s).1 ∧
    (∀ (codes : Finset Int) (tr : TransportResult),
      (requestStep codes closeErr tr s).2.2 = (requestStep codes closeErr2 tr s).2.2 ∧
      (requestStep codes closeErr tr s).1 = (requestStep codes closeErr2 tr s).1) := by
  refine ⟨by simp [maybeReset, hp], by simp [maybeReset, hp], fun codes tr => ?_⟩
  cases tr <;> simp [requestStep, maybeReset, hp]

/-- C10: after `close()` (handle absent, flag cleared), `reset()` arms the
flag and runs the reconstruction: a brand-new session is created and
installed, so the closed guard holds a live session again; the absent
handle plays the role of the old session and the `AttributeError` from
closing it is swallowed by the reconstruction's exception handler. -/
theorem reset_after_close_revives (closeErr : Nat → Bool)
    (s : SessState) (sid : Nat) (hs : s.session = some sid) :
    (resetOp closeErr (closeOp closeErr s).1).1 =
      { session := some s.nextId, resetRequested := false, nextId := s.nextId + 1 } ∧
    (resetOp closeErr (closeOp closeErr s).1).2 =
      [Event.created s.nextId, Event.installed s.nextId,
        Event.closeFailed none, Event.resetLogged] := by
  simp [closeOp, hs, resetOp, maybeReset, closeOldEvents]

/-- The trace of a request performed while a reset is pending: the
reconstruction events happen first, then (since the old handle is a real
session) a single close event, the log line, and only then the delegation
to the freshly installed session. -/
theorem requestStep_pending_trace (codes : Finset Int) (closeErr : Nat → Bool)
    (tr : TransportResult) (s : SessState) (sid : Nat)
    (hp : s.resetRequested = true) (hs : s.session = some sid) :
    (requestStep codes closeErr tr s).2.1 =
      [Event.created s.nextId, Event.installed s.nextId,
        (if closeErr sid then Event.closeFailed (some sid) else Event.closed sid),
        Event.resetLogged, Event.delegated s.nextId] := by
  by_cases hce : closeErr sid <;>
    cases tr <;>
      simp [requestStep, maybeReset, closeOldEvents, hp, hs, hce]

/-- C1: a response bearing a poison status (with a non-empty poison set)
returns intact to its caller, served by the still-current session, and only
arms the pending flag; the next request, whatever its own outcome, first
performs the reconstruction (the install of the fresh session precedes its
delegation) and delegates exclusively to the new instance, which differs
from the one that produced the poison response. -/
theorem poison_arms_deferred_reset (codes : Finset Int) (closeErr : Nat → Bool)
    (s : SessState) (sid : Nat) (st : Int)
    (hs : s.session = some sid) (hf : s.resetRequested = false)
    (hfresh : sid < s.nextId) (hst : st ∈ codes) :
    requestStep codes closeErr (TransportResult.ok st) s =
      ({ s with resetRequested := true }, [Event.delegated sid], Except.ok ⟨st, sid⟩) ∧
    s.nextId ≠ sid ∧
    (∀ tr2 : TransportResult,
      (∀ id, Event.delegated id ∈
          (requestStep codes closeErr tr2 { s with resetRequested := true }).2.1 →
        id = s.nextId) ∧
      Event.delegated s.nextId ∈
        (requestStep codes closeErr tr2 { s with resetRequested := true }).2.1 ∧
      precedes (Event.installed s.nextId) (Event.delegated s.nextId)
        (requestStep codes closeErr tr2 { s with resetRequested := true }).2.1) := by
  have hcond : codes.Nonempty ∧ st ∈ codes := ⟨⟨st, hst⟩, hst⟩
  refine ⟨?_, Nat.ne_of_gt hfresh, fun tr2 => ?_⟩
  · simp [requestStep, maybeReset, hf, hs, hcond]
  · have ht2 := requestStep_pending_trace codes closeErr tr2
      { s with resetRequested := true } sid rfl hs
    rw [ht2]
    refine ⟨fun id hid => ?_, by simp, ?_⟩
    · by_cases hce : closeErr sid <;> simp [hce] at hid <;> exact hid
    · exact ⟨⟨1, by simp⟩, ⟨4, by simp⟩, (by omega : (1:Nat) < 4), rfl, rfl⟩

/-- C2 as stated is refuted on a concrete reconstruction: starting from a
pending reset with live session 0, the trace shows the new session (id 1)
being created and installed BEFORE the old session (id 0) is closed, so the
old session is not destroyed before being replaced. -/
theorem old_close_before_install_cex :
    (maybeReset (fun _ => false)
        { session := some 0, resetRequested := true, nextId := 1 }).2 =
      [Event.created 1, Event.installed 1, Event.closed 0, Event.resetLogged] ∧
    ¬ precedes (Event.closed 0) (Event.installed 1)
      (maybeReset (fun _ => false)
        { session := some 0, resetRequested := true, nextId := 1 }).2 :=
  ⟨rfl, by decide⟩

/-- C2 amended: the guard's handle always designates exactly one session
(the fresh one right after the swap), and during reconstruction the new
session is installed FIRST; the old session's close (successful or failed,
always suppressed) happens only afterwards. -/
theorem reconstruction_installs_new_before_closing_old (closeErr : Nat → Bool)
    (s : SessState) (old : Nat)
    (hp : s.resetRequested = true) (hs : s.session = some old) :
    (maybeReset closeErr s).1.session = some s.nextId ∧
    ∃ e, (e = Event.closed old ∨ e = Event.closeFailed (some old)) ∧
      precedes (Event.installed s.nextId) e (maybeReset closeErr s).2 := by
  have htr : (maybeReset closeErr s).2 =
      [Event.created s.nextId, Event.installed s.nextId,
        (if closeErr old then Event.closeFailed (some old) else Event.closed old),
        Event.resetLogged] := by
    by_cases hce : closeErr old <;> simp [maybeReset, closeOldEvents, hp, hs, hce]
  refine ⟨by simp [maybeReset, hp], ?_⟩
  refine ⟨if closeErr old then Event.closeFailed (some old) else Event.closed old,
    ?_, ?_⟩
  · by_cases hce : closeErr old <;> simp [hce]
  · rw [htr]
    exact ⟨⟨1, by simp⟩, ⟨2, by simp⟩, (by omega : (1:Nat) < 2), rfl, rfl⟩

/-- A session id that has been retired: it is below the fresh-id counter and
is not the live session, so no future operation can ever delegate to it. -/
def Avoids (sid : Nat) (s : SessState) : Prop :=
  sid < s.nextId ∧ s.session ≠ some sid

/-- `_maybe_reset` preserves retirement and never delegates. -/
theorem avoids_maybeReset (closeErr : Nat → Bool) (sid : Nat) (s : SessState)
    (h : Avoids sid s) :
    Avoids sid (maybeReset closeErr s).1 ∧
      ∀ id, Event.delegated id ∉ (maybeReset closeErr s).2 := by
  obtain ⟨h1, h2⟩ := h
  by_cases hp : s.resetRequested
  · refine ⟨⟨by simp [maybeReset, hp]; omega, ?_⟩, fun id => ?_⟩
    · simp only [maybeReset, hp, if_true]
      simp only [Option.some.injEq, ne_eq]
      omega
    · rcases hos : s.session with _ | j <;>
        simp [maybeReset, hp, closeOldEvents, hos] <;>
      by_cases hce : closeErr j <;> simp [hce]
  · have hpf : s.resetRequested = false := by simpa using hp
    exact ⟨⟨by simp [maybeReset, hpf]; omega, by simp [maybeReset, hpf, h2]⟩,
      fun id => by simp [maybeReset, hpf]⟩

/-- The state component of `_request` is the post-reconstruction state, at
most with the pending flag re-armed by the response status. -/
theorem requestStep_state (codes : Finset Int) (closeErr : Nat → Bool)
    (tr : TransportResult) (s : SessState) :
    (requestStep codes closeErr tr s).1 = (maybeReset closeErr s).1 ∨
    (requestStep codes closeErr tr s).1 =
      { (maybeReset closeErr s).1 with resetRequested := true } := by
  rcases hms : (maybeReset closeErr s).1.session with _ | j
  · left; simp [requestStep, hms]
  · cases tr with
    | err e => left; simp [requestStep, hms]
    | ok st =>
        by_cases hcond : codes.Nonempty ∧ st ∈ codes
        · right; simp [requestStep, hms, hcond]
        · left; simp [requestStep, hms, hcond]

/-- The events of `_request` are the reconstruction events, followed by a
delegation to the post-reconstruction live session when one exists. -/
theorem requestStep_events (codes : Finset Int) (closeErr : Nat → Bool)
    (tr : TransportResult) (s : SessState) :
    (requestStep codes closeErr tr s).2.1 = (maybeReset closeErr s).2 ∨
    ∃ j, (maybeReset closeErr s).1.session = some j ∧
      (requestStep codes closeErr tr s).2.1 =
        (maybeReset closeErr s).2 ++ [Event.delegated j] := by
  rcases hms : (maybeReset closeErr s).1.session with _ | j
  · left; simp [requestStep, hms]
  · refine Or.inr ⟨j, rfl, ?_⟩
    cases tr with
    | err e => simp [requestStep, hms]
    | ok st =>
        by_cases hcond : codes.Nonempty ∧ st ∈ codes <;>
          simp [requestStep, hms, hcond]

/-- One guard operation preserves retirement, and any delegation it performs
targets a session other than the retired one. -/
theorem avoids_opStep (codes : Finset Int) (closeErr : Nat → Bool) (sid : Nat)
    (s : SessState) (op : Op) (h : Avoids sid s) :
    Avoids sid (opStep codes closeErr s op).1 ∧
      ∀ id, Event.delegated id ∈ (opStep codes closeErr s op).2 → id ≠ sid := by
  cases op with
  | rst =>
      have h0 : Avoids sid { s with resetRequested := true } := ⟨h.1, h.2⟩
      have hmr := avoids_maybeReset closeErr sid { s with resetRequested := true } h0
      exact ⟨hmr.1, fun id hmem => absurd hmem (hmr.2 id)⟩
  | cls =>
      rcases hos : s.session with _ | j
      · refine ⟨?_, fun id hmem => ?_⟩
        · simpa [opStep, closeOp, hos] using h
        · simp [opStep, closeOp, hos] at hmem
      · refine ⟨⟨?_, ?_⟩, fun id hmem => ?_⟩
        · simpa [opStep, closeOp, hos] using h.1
        · simp [opStep, closeOp, hos]
        · simp only [opStep, closeOp, hos] at hmem
          by_cases hce : closeErr j <;> simp [hce] at hmem
  | req tr =>
      obtain ⟨⟨ha1, ha2⟩, hnd⟩ := avoids_maybeReset closeErr sid s h
      constructor
      · show Avoids sid (requestStep codes closeErr tr s).1
        rcases requestStep_state codes closeErr tr s with he | he <;> rw [he] <;>
          exact ⟨ha1, ha2⟩
      · intro id hmem
        have hmem2 : Event.delegated id ∈ (requestStep codes closeErr tr s).2.1 := hmem
        rcases requestStep_events codes closeErr tr s with he | ⟨j, hj, he⟩
        · rw [he] at hmem2
          exact absurd hmem2 (hnd id)
        · rw [he] at hmem2
          rcases List.mem_append.mp hmem2 with hmem3 | hmem3
          · exact absurd hmem3 (hnd id)
          · cases List.mem_singleton.mp hmem3
            exact fun heq => ha2 (by rw [hj, heq])

/-- Running any operation sequence from a state where `sid` is retired never
delegates to `sid`. -/
theorem avoids_runOps (codes : Finset Int) (closeErr : Nat → Bool) (sid : Nat) :
    ∀ (ops : List Op) (s : SessState), Avoids sid s →
      Avoids sid (runOps codes closeErr s ops).1 ∧
        ∀ id, Event.delegated id ∈ (runOps codes closeErr s ops).2 → id ≠ sid := by
  intro ops
  induction ops with
  | nil => exact fun s h => ⟨h, by simp [runOps]⟩
  | cons op rest ih =>
      intro s h
      obtain ⟨hstep, hev⟩ := avoids_opStep codes closeErr sid s op h
      obtain ⟨hrun, hrev⟩ := ih _ hstep
      refine ⟨hrun, fun id hmem => ?_⟩
      simp only [runOps, List.mem_append] at hmem
      rcases hmem with hmem | hmem
      · exact hev id hmem
      · exact hrev id hmem

/-- C8: `reset()` replaces the session before returning: afterwards the
guard holds the fresh session (which differs from the pre-reset one), and no
operation sequence performed after the `reset()` ever delegates a request to
the pre-reset session instance. -/
theorem reset_is_synchronous (codes : Finset Int) (closeErr : Nat → Bool)
    (s : SessState) (sid : Nat)
    (hs : s.session = some sid) (hfresh : sid < s.nextId) :
    (resetOp closeErr s).1.session = some s.nextId ∧
    s.nextId ≠ sid ∧
    ∀ (ops : List Op) (id : Nat),
      Event.delegated id ∈ (runOps codes closeErr (resetOp closeErr s).1 ops).2 →
        id ≠ sid := by
  have hres : (resetOp closeErr s).1 =
      { session := some s.nextId, resetRequested := false, nextId := s.nextId + 1 } := by
    simp [resetOp, maybeReset]
  have havoid : Avoids sid (resetOp closeErr s).1 := by
    rw [hres]
    exact ⟨Nat.lt_succ_of_lt hfresh, by simp; omega⟩
  exact ⟨by rw [hres], Nat.ne_of_gt hfresh,
    fun ops id hmem => (avoids_runOps codes closeErr sid ops _ havoid).2 id hmem⟩

/-- Effect of overwriting task `i` on the number of critical-section tasks. -/
theorem countP_isClosing_set (l : List Pc) (i : Nat) (x y : Pc)
    (hget : l[i]? = some y) :
    (l.set i x).countP isClosing =
      l.countP isClosing - (if isClosing y then 1 else 0)
        + (if isClosing x then 1 else 0) := by
  obtain ⟨hlen, hv⟩ := List.getElem?_eq_some_iff.mp hget
  rw [List.countP_set _ _ _ _ hlen, hv]

/-- A task inside the critical section contributes to `countP isClosing`. -/
theorem one_le_closingCount (c : MConfig) (i : Nat) (old : Option Nat)
    (hget : c.tasks[i]? = some (Pc.closing old)) :
    1 ≤ closingCount c :=
  List.countP_pos_iff.mpr ⟨Pc.closing old, List.getElem?_mem hget, rfl⟩

/-- Inductive invariant of the interleaving model: the lock is held exactly
when one task is inside the critical section; the reconstruction has
happened exactly when the flag has been cleared (and then exactly once); and
while the flag is still set every task is before the critical section. -/
def MInv (c : MConfig) : Prop :=
  closingCount c = (if c.lockHeld then 1 else 0) ∧
  ((c.resetRequested = true ∧ c.createCount = 0) ∨
    (c.resetRequested = false ∧ c.createCount = 1)) ∧
  (c.resetRequested = true → ∀ pc ∈ c.tasks, pc = Pc.start ∨ pc = Pc.waitLock)

/-- Every scheduler step preserves the invariant. -/
theorem mInv_taskStep (c : MConfig) (i : Nat) (h : MInv c) : MInv (taskStep c i) := by
  obtain ⟨h1, h2, h3⟩ := h
  rcases hget : c.tasks[i]? with _ | pc
  · have he : taskStep c i = c := by
      rw [taskStep, hget]
    rw [he]
    exact ⟨h1, h2, h3⟩
  have hkeep : ∀ x : Pc, isClosing x = false → isClosing pc = false →
      (c.tasks.set i x).countP isClosing = c.tasks.countP isClosing := by
    intro x hx hpc
    rw [countP_isClosing_set _ _ x pc hget, hx, hpc]
    simp
  cases pc with
  | done =>
      have he : taskStep c i = c := by
        rw [taskStep, hget]
      rw [he]
      exact ⟨h1, h2, h3⟩
  | start =>
      by_cases hrr : c.resetRequested = true
      · have he : taskStep c i = { c with tasks := c.tasks.set i Pc.waitLock } := by
          rw [taskStep, hget, if_pos hrr]
        rw [he]
        refine ⟨?_, h2, ?_⟩
        · show (c.tasks.set i Pc.waitLock).countP isClosing =
            if c.lockHeld then 1 else 0
          rw [hkeep Pc.waitLock rfl rfl]
          exact h1
        · intro hf pc2 hmem
          rcases List.mem_or_eq_of_mem_set hmem with hm | he2
          · exact h3 hf pc2 hm
          · exact Or.inr he2
      · have he : taskStep c i = { c with tasks := c.tasks.set i Pc.done } := by
          rw [taskStep, hget, if_neg hrr]
        rw [he]
        refine ⟨?_, h2, ?_⟩
        · show (c.tasks.set i Pc.done).countP isClosing =
            if c.lockHeld then 1 else 0
          rw [hkeep Pc.done rfl rfl]
          exact h1
        · intro hf
          exact absurd hf hrr
  | waitLock =>
      by_cases hlk : c.lockHeld = true
      · have he : taskStep c i = c := by
          rw [taskStep, hget, if_pos hlk]
        rw [he]
        exact ⟨h1, h2, h3⟩
      by_cases hrr : c.resetRequested = true
      · have he : taskStep c i =
            { c with
              resetRequested := false
              session := some c.nextId
              nextId := c.nextId + 1
              createCount := c.createCount + 1
              lockHeld := true
              tasks := c.tasks.set i (Pc.closing c.session) } := by
          rw [taskStep, hget]
          simp only [if_neg hlk, if_pos hrr]
        rw [he]
        have hcc : c.createCount = 0 := by
          rcases h2 with ⟨_, h0⟩ | ⟨hff, _⟩
          · exact h0
          · rw [hrr] at hff
            cases hff
        refine ⟨?_, Or.inr ⟨rfl, by rw [hcc]⟩, ?_⟩
        · show (c.tasks.set i (Pc.closing c.session)).countP isClosing = 1
          rw [countP_isClosing_set _ _ _ _ hget]
          have hlkf : c.lockHeld = false := by simpa using hlk
          have h10 : c.tasks.countP isClosing = 0 := by
            have := h1
            rw [closingCount, hlkf] at this
            simpa using this
          simp [isClosing, h10]
        · intro hf
          cases hf
      · have he : taskStep c i = { c with tasks := c.tasks.set i Pc.done } := by
          rw [taskStep, hget]
          simp only [if_neg hlk, if_neg hrr]
        rw [he]
        refine ⟨?_, h2, ?_⟩
        · show (c.tasks.set i Pc.done).countP isClosing =
            if c.lockHeld then 1 else 0
          rw [hkeep Pc.done rfl rfl]
          exact h1
        · intro hf
          exact absurd hf hrr
  | closing old =>
      have hrrf : c.resetRequested = false := by
        by_contra hne
        have hrr : c.resetRequested = true := by simpa using hne
        rcases h3 hrr (Pc.closing old) (List.getElem?_mem hget) with h | h <;> cases h
      have hlkt : c.lockHeld = true := by
        cases hlk : c.lockHeld
        · exfalso
          have hpos : 1 ≤ closingCount c := one_le_closingCount c i old hget
          rw [h1, hlk] at hpos
          simp at hpos
        · rfl
      have he : taskStep c i =
          { c with lockHeld := false, tasks := c.tasks.set i Pc.done } := by
        rw [taskStep, hget]
      rw [he]
      refine ⟨?_, h2, ?_⟩
      · show (c.tasks.set i Pc.done).countP isClosing = if false = true then 1 else 0
        rw [countP_isClosing_set _ _ _ _ hget]
        have h11 : c.tasks.countP isClosing = 1 := by
          have := h1
          rw [closingCount, hlkt] at this
          simpa using this
        simp [isClosing, h11]
      · intro hf
        rw [hrrf] at hf
        cases hf

/-- The invariant holds along every schedule. -/
theorem mInv_runSched (σ : List Nat) : ∀ c, MInv c → MInv (runSched c σ) := by
  induction σ with
  | nil => exact fun _ h => h
  | cons i rest ih => exact fun c h => ih _ (mInv_taskStep c i h)

/-- The invariant holds initially. -/
theorem mInv_mInit (n : Nat) : MInv (mInit n) := by
  refine ⟨?_, Or.inl ⟨rfl, rfl⟩, ?_⟩
  · simp [mInit, closingCount, List.countP_replicate, isClosing]
  · intro _ pc hmem
    exact Or.inl (List.eq_of_mem_replicate hmem)

/-- Scheduling never gains or loses tasks. -/
theorem tasks_length_taskStep (c : MConfig) (i : Nat) :
    (taskStep c i).tasks.length = c.tasks.length := by
  rcases hget : c.tasks[i]? with _ | pc
  · rw [taskStep, hget]
  · cases pc <;> rw [taskStep, hget] <;>
      first
        | rfl
        | (by_cases hrr : c.resetRequested = true <;>
            by_cases hlk : c.lockHeld = true <;>
              simp [hrr, hlk])

/-- Task count is schedule-invariant. -/
theorem tasks_length_runSched (σ : List Nat) :
    ∀ c, (runSched c σ).tasks.length = c.tasks.length := by
  induction σ with
  | nil => exact fun _ => rfl
  | cons i rest ih =>
      intro c
      rw [runSched, ih, tasks_length_taskStep]

/-- C5: for a pending episode with `n ≥ 1` concurrent callers in
`_maybe_reset`, every complete schedule performs exactly one session
construction (the double-checked callers find the flag already cleared and
do nothing), and along any schedule at most one task is ever inside the
critical reconstruction section. -/
theorem exactly_one_reconstruction (n : Nat) (σ τ : List Nat) (hn : 1 ≤ n)
    (hdone : allDone (runSched (mInit n) σ)) :
    (runSched (mInit n) σ).createCount = 1 ∧
    closingCount (runSched (mInit n) τ) ≤ 1 := by
  have hσ := mInv_runSched σ (mInit n) (mInv_mInit n)
  have hτ := mInv_runSched τ (mInit n) (mInv_mInit n)
  constructor
  · rcases hσ.2.1 with ⟨hrr, _⟩ | ⟨_, hcc⟩
    · exfalso
      have hlen : (runSched (mInit n) σ).tasks.length = n := by
        rw [tasks_length_runSched]
        simp [mInit]
      have hne : (runSched (mInit n) σ).tasks ≠ [] :=
        List.length_pos.mp (by omega)
      obtain ⟨pc, hmem⟩ := List.exists_mem_of_ne_nil _ hne
      have hd := hdone pc hmem
      rcases hσ.2.2 hrr pc hmem with h | h <;> rw [hd] at h <;> cases h
    · exact hcc
  · rw [hτ.1]
    cases (runSched (mInit n) τ).lockHeld <;> simp

/-- Witness for the poison-code scenario: poison set {403}, first request
returns 403 and is served intact by session 0; the second request delegates
to session 1, after installing it. -/
theorem poison_arms_deferred_reset_witness :
    requestStep ({403} : Finset Int) (fun _ => false) (TransportResult.ok 403) initState =
      ({ initState with resetRequested := true },
        [Event.delegated 0], Except.ok ⟨403, 0⟩) ∧
    Event.delegated 1 ∈
      (requestStep ({403} : Finset Int) (fun _ => false) (TransportResult.ok 200)
        { initState with resetRequested := true }).2.1 ∧
    precedes (Event.installed 1) (Event.delegated 1)
      (requestStep ({403} : Finset Int) (fun _ => false) (TransportResult.ok 200)
        { initState with resetRequested := true }).2.1 := by
  have h := poison_arms_deferred_reset ({403} : Finset Int) (fun _ => false) initState 0 403
    rfl rfl (by decide) (by decide)
  exact ⟨h.1, (h.2.2 (TransportResult.ok 200)).2.1, (h.2.2 (TransportResult.ok 200)).2.2⟩

/-- Witness for the amended reconstruction-ordering claim, with a failing
close of the old session. -/
theorem reconstruction_installs_new_before_closing_old_witness :
    (maybeReset (fun _ => true)
        { session := some 0, resetRequested := true, nextId := 1 }).1.session = some 1 ∧
    ∃ e, (e = Event.closed 0 ∨ e = Event.closeFailed (some 0)) ∧
      precedes (Event.installed 1) e
        (maybeReset (fun _ => true)
          { session := some 0, resetRequested := true, nextId := 1 }).2 :=
  reconstruction_installs_new_before_closing_old (fun _ => true)
    { session := some 0, resetRequested := true, nextId := 1 } 0 rfl rfl

/-- Witness for the empty-poison-set scenario: a 403 with poison set ∅ never
arms a reset, and both requests are delegated to session 0. -/
theorem non_poison_never_arms_reset_witness :
    requestStep (∅ : Finset Int) (fun _ => false) (TransportResult.ok 404) initState =
      (initState, [Event.delegated 0], Except.ok ⟨404, 0⟩) ∧
    (runOps (∅ : Finset Int) (fun _ => false) initState
        [Op.req (TransportResult.ok 403), Op.req (TransportResult.ok 404)]).2 =
      [Event.delegated 0, Event.delegated 0] := by
  have h := non_poison_never_arms_reset (∅ : Finset Int) (fun _ => false) initState 0 404
    rfl rfl (Finset.not_mem_empty 404)
  exact ⟨h.1, h.2 rfl⟩

/-- Witness for exactly-once reconstruction: three concurrent callers, a
concrete complete schedule, one construction, never two critical tasks. -/
theorem exactly_one_reconstruction_witness :
    (runSched (mInit 3) [0, 1, 2, 0, 1, 2, 0, 1, 2]).createCount = 1 ∧
    closingCount (runSched (mInit 3) [0, 1, 2, 0, 1, 2, 0, 1, 2]) ≤ 1 :=
  exactly_one_reconstruction 3 [0, 1, 2, 0, 1, 2, 0, 1, 2] [0, 1, 2, 0, 1, 2, 0, 1, 2]
    (by decide) (by decide)

/-- Witness for suppression of close failures during reconstruction: a close
that always raises yields the same installed state and the same request
outcome as one that never does. -/
theorem reconstruction_close_failure_suppressed_witness :
    (maybeReset (fun _ => true)
        { session := some 0, resetRequested := true, nextId := 1 }).1 =
      { session := some 1, resetRequested := false, nextId := 2 } ∧
    (maybeReset (fun _ => true)
        { session := some 0, resetRequested := true, nextId := 1 }).1 =
      (maybeReset (fun _ => false)
        { session := some 0, resetRequested := true, nextId := 1 }).1 ∧
    (requestStep ({403} : Finset Int) (fun _ => true) (TransportResult.ok 200)
        { session := some 0, resetRequested := true, nextId := 1 }).2.2 =
      (requestStep ({403} : Finset Int) (fun _ => false) (TransportResult.ok 200)
        { session := some 0, resetRequested := true, nextId := 1 }).2.2 := by
  have h := reconstruction_close_failure_suppressed (fun _ => true) (fun _ => false)
    { session := some 0, resetRequested := true, nextId := 1 } rfl
  exact ⟨h.1, h.2.1, (h.2.2 {403} (TransportResult.ok 200)).1⟩

/-- Witness for `close()` semantics under a raising underlying close. -/
theorem close_clears_state_and_idempotent_witness :
    (closeOp (fun _ => true) initState).1 =
      { session := none, resetRequested := false, nextId := 1 } ∧
    (closeOp (fun _ => true) initState).2.2 = true ∧
    closeOp (fun _ => true) (closeOp (fun _ => true) initState).1 =
      ((closeOp (fun _ => true) initState).1, [], false) := by
  have h := close_clears_state_and_idempotent (fun _ => true) initState 0 rfl
  exact ⟨h.1, h.2.2.1, h.2.2.2⟩

/-- Witness for synchronous `reset()`: after the reset the guard holds
session 1 and a subsequent request never delegates to session 0. -/
theorem reset_is_synchronous_witness :
    (resetOp (fun _ => false) initState).1.session = some 1 ∧
    (1 : Nat) ≠ 0 ∧
    Event.delegated 0 ∉
      (runOps ({403} : Finset Int) (fun _ => false) (resetOp (fun _ => false) initState).1
        [Op.req (TransportResult.ok 200)]).2 := by
  have h := reset_is_synchronous ({403} : Finset Int) (fun _ => false) initState 0 rfl
    (by decide)
  exact ⟨h.1, h.2.1, fun hmem => h.2.2 [Op.req (TransportResult.ok 200)] 0 hmem rfl⟩

/-- Witness for transport-error propagation. -/
theorem transport_error_propagates_witness :
    requestStep ({403} : Finset Int) (fun _ => false) (TransportResult.err 7) initState =
      (initState, [Event.delegated 0], Except.error (ReqError.transport 7)) :=
  transport_error_propagates ({403} : Finset Int) (fun _ => false) initState 0 7 rfl rfl

/-- Witness for `reset()` after `close()` reviving the guard. -/
theorem reset_after_close_revives_witness :
    (resetOp (fun _ => false) (closeOp (fun _ => false) initState).1).1 =
      { session := some 1, resetRequested := false, nextId := 2 } ∧
    (resetOp (fun _ => false) (closeOp (fun _ => false) initState).1).2 =
      [Event.created 1, Event.installed 1, Event.closeFailed none, Event.resetLogged] :=
  reset_after_close_revives (fun _ => false) initState 0 rfl
